import Mathlib

/-!
Verification development for the yili-ai-python backend.

The Python sources are shallowly embedded: pure functions become Lean
functions, mutation of the in-memory mock stores becomes explicit state
passing, exceptions become `Except`, and external collaborators (the LLM
provider, the search engine) become explicit parameters describing their
outcome.  Python `float` arithmetic is modelled exactly over `ℚ`
(decimal literals are taken at face value); Python `int` is `ℤ`.
-/

set_option maxHeartbeats 1000000

/-! ## Generic list helpers -/

/-- Python `max(seq)` for a non-empty integer sequence (left fold of `max`
over the tail, seeded with the head; the `[]` case is never reached by the
call sites, which guard on non-emptiness first). -/
def pyMaxIds : List ℤ → ℤ
  | [] => 0
  | x :: xs => xs.foldl max x

theorem foldl_max_le_iff (xs : List ℤ) : ∀ (x y : ℤ), y ≤ xs.foldl max x ↔ y ≤ x ∨ ∃ z ∈ xs, y ≤ z := by
  induction xs with
  | nil => intro x y; simp
  | cons a l ih =>
    intro x y
    simp only [List.foldl_cons, ih (max x a) y, le_max_iff, List.mem_cons]
    constructor
    · rintro ((h | h) | ⟨z, hz, hyz⟩)
      · exact Or.inl h
      · exact Or.inr ⟨a, Or.inl rfl, h⟩
      · exact Or.inr ⟨z, Or.inr hz, hyz⟩
    · rintro (h | ⟨z, (rfl | hz), hyz⟩)
      · exact Or.inl (Or.inl h)
      · exact Or.inl (Or.inr hyz)
      · exact Or.inr ⟨z, hz, hyz⟩

theorem foldl_max_mem (xs : List ℤ) : ∀ x : ℤ, xs.foldl max x = x ∨ xs.foldl max x ∈ xs := by
  induction xs with
  | nil => intro x; simp
  | cons a l ih =>
    intro x
    rcases ih (max x a) with h | h
    · rcases max_choice x a with hx | hx
      · rw [List.foldl_cons, h, hx]; exact Or.inl rfl
      · rw [List.foldl_cons, h, hx]; exact Or.inr (List.mem_cons_self _ _)
    · exact Or.inr (List.mem_cons_of_mem _ h)

theorem le_pyMaxIds {l : List ℤ} {y : ℤ} (h : y ∈ l) : y ≤ pyMaxIds l := by
  cases l with
  | nil => cases h
  | cons x xs =>
    rcases List.mem_cons.mp h with rfl | h
    · exact (foldl_max_le_iff _ _ _).mpr (Or.inl le_rfl)
    · exact (foldl_max_le_iff _ _ _).mpr (Or.inr ⟨y, h, le_rfl⟩)

theorem pyMaxIds_mem {l : List ℤ} (h : l ≠ []) : pyMaxIds l ∈ l := by
  cases l with
  | nil => exact absurd rfl h
  | cons x xs =>
    rcases foldl_max_mem xs x with h' | h'
    · rw [pyMaxIds, h']; exact List.mem_cons_self _ _
    · exact List.mem_cons_of_mem _ h'

/-! ## Mock CRUD stores: customers (`app/api/endpoints/customers.py`) -/

/-- An HTTP error raised by a handler (`HTTPException(status_code, detail)`). -/
structure HTTPErr where
  code : ℕ
  detail : String
deriving DecidableEq, Repr

/-- A row of `customers_db`. -/
structure Customer where
  id : ℤ
  name : String
  email : String
  phone : String
  address : Option String
  vip_level : ℤ
  created_at : ℕ
  updated_at : Option ℕ
  total_orders : ℤ
  total_spent : ℚ
deriving DecidableEq, Repr

/-- Request body of `POST /customers/` (`CustomerCreate`). -/
structure CustomerCreate where
  name : String
  email : String
  phone : String
  address : Option String
  vip_level : ℤ
deriving DecidableEq, Repr

/-- Request body of `PUT /customers/{id}` (`CustomerUpdate`); `none` means the
field is unset in the payload (pydantic `exclude_unset`). -/
structure CustomerUpdate where
  name : Option String
  email : Option String
  phone : Option String
  address : Option String
  vip_level : Option ℤ
deriving DecidableEq, Repr

/-- `create_customer`: reject duplicate email with 400, otherwise assign
`id = max(existing) + 1` (1 on an empty store), stamp timestamps, zero the
totals, and append.  `now` stands for `datetime.now()`. -/
def create_customer (db : List Customer) (c : CustomerCreate) (now : ℕ) :
    Except HTTPErr (Customer × List Customer) :=
  if db.any (fun x => x.email == c.email) then
    .error ⟨400, "该邮箱已被注册"⟩
  else
    let new_customer : Customer :=
      { id := if db = [] then 1 else pyMaxIds (db.map (·.id)) + 1
        name := c.name, email := c.email, phone := c.phone
        address := c.address, vip_level := c.vip_level
        created_at := now, updated_at := none
        total_orders := 0, total_spent := 0 }
    .ok (new_customer, db ++ [new_customer])

/-- Merge the set fields of an update payload over an existing row and stamp
`updated_at` (the `{**c, **update_data, "updated_at": now}` merge). -/
def mergeCustomer (c : Customer) (u : CustomerUpdate) (now : ℕ) : Customer :=
  { c with
    name := u.name.getD c.name
    email := u.email.getD c.email
    phone := u.phone.getD c.phone
    address := match u.address with | some a => some a | none => c.address
    vip_level := u.vip_level.getD c.vip_level
    updated_at := some now }

/-- Replace the first row whose id matches (`customers_db[i] = updated`). -/
def replaceById (cid : ℤ) (c' : Customer) : List Customer → List Customer
  | [] => []
  | c :: rest => if c.id = cid then c' :: rest else c :: replaceById cid c' rest

/-- `update_customer`: 404 when the id is absent; 400 when the payload sets an
email that is non-empty, differs from the row's own email, and is already used
by a row with a different id; otherwise merge and write back in place. -/
def update_customer (db : List Customer) (cid : ℤ) (u : CustomerUpdate) (now : ℕ) :
    Except HTTPErr (Customer × List Customer) :=
  match db.find? (fun c => c.id == cid) with
  | none => .error ⟨404, "客户不存在"⟩
  | some c =>
    match u.email with
    | some em =>
      if em ≠ "" ∧ em ≠ c.email ∧ ∃ other ∈ db, other.id ≠ cid ∧ other.email = em then
        .error ⟨400, "该邮箱已被其他客户注册"⟩
      else
        let c' := mergeCustomer c u now
        .ok (c', replaceById cid c' db)
    | none =>
      let c' := mergeCustomer c u now
      .ok (c', replaceById cid c' db)

/-! ## Mock CRUD stores: products (`app/api/endpoints/products.py`) -/

/-- A row of `products_db`. -/
structure Product where
  id : ℤ
  name : String
  description : String
  price : ℚ
  stock : ℤ
  category : String
  created_at : ℕ
  updated_at : Option ℕ
deriving DecidableEq, Repr

/-- Request body of `POST /products/` (`ProductCreate`). -/
structure ProductCreate where
  name : String
  description : String
  price : ℚ
  stock : ℤ
  category : String
deriving DecidableEq, Repr

/-- `create_product`: assign `id = max(existing) + 1` (1 on an empty store),
stamp timestamps, append.  Never fails. -/
def create_product (db : List Product) (p : ProductCreate) (now : ℕ) :
    Product × List Product :=
  let new_product : Product :=
    { id := if db = [] then 1 else pyMaxIds (db.map (·.id)) + 1
      name := p.name, description := p.description, price := p.price
      stock := p.stock, category := p.category
      created_at := now, updated_at := none }
  (new_product, db ++ [new_product])

/-! ## Mock CRUD stores: orders (`app/api/endpoints/orders.py`) -/

/-- An order line item in a `POST /orders/` request (`OrderItemCreate`). -/
structure OrderItemCreate where
  product_id : ℤ
  quantity : ℤ
  unit_price : ℚ
deriving DecidableEq, Repr

/-- Request body of `POST /orders/` (`OrderCreate`). -/
structure OrderCreateReq where
  user_id : ℤ
  status : String
  shipping_address : String
  payment_method : String
  items : List OrderItemCreate
deriving DecidableEq, Repr

/-- A row of `order_items_db`. -/
structure OrderItemRec where
  id : ℤ
  order_id : ℤ
  product_id : ℤ
  quantity : ℤ
  unit_price : ℚ
  subtotal : ℚ
deriving DecidableEq, Repr

/-- A row of `orders_db` (the `items` of the response are returned separately). -/
structure OrderRec where
  id : ℤ
  user_id : ℤ
  status : String
  shipping_address : String
  payment_method : String
  total_amount : ℚ
  created_at : ℕ
deriving DecidableEq, Repr

/-- The hard-coded price table of `create_order`: product ids 1/2/3 map to
6999.00/4999.00/999.00, any other id keeps the caller-supplied unit price. -/
def lookupPrice (item : OrderItemCreate) : ℚ :=
  if item.product_id = 1 then 6999
  else if item.product_id = 2 then 4999
  else if item.product_id = 3 then 999
  else item.unit_price

/-- The body of the `for i, item in enumerate(order.items)` loop of
`create_order`: returns the accumulated total and the created item rows.
`base` is `max(i["id"] for i in order_items_db) + 1` (or 1), `i` the index. -/
def buildOrderItems (order_id base : ℤ) : ℕ → List OrderItemCreate → ℚ × List OrderItemRec
  | _, [] => (0, [])
  | i, item :: rest =>
    let product_price := lookupPrice item
    let subtotal := product_price * item.quantity
    let acc := buildOrderItems order_id base (i + 1) rest
    (subtotal + acc.1,
      { id := base + i, order_id := order_id, product_id := item.product_id
        quantity := item.quantity, unit_price := product_price
        subtotal := subtotal } :: acc.2)

/-- `create_order`: assign the order id, price every line item through the
fixed table, sum the subtotals into `total_amount`, append everything. -/
def create_order (odb : List OrderRec) (idb : List OrderItemRec)
    (req : OrderCreateReq) (now : ℕ) : OrderRec × List OrderItemRec :=
  let new_id : ℤ := if odb = [] then 1 else pyMaxIds (odb.map (·.id)) + 1
  let base : ℤ := if idb = [] then 1 else pyMaxIds (idb.map (·.id)) + 1
  let built := buildOrderItems new_id base 0 req.items
  ({ id := new_id, user_id := req.user_id, status := req.status
     shipping_address := req.shipping_address
     payment_method := req.payment_method
     total_amount := built.1, created_at := now }, built.2)

/-! ## Search hits and vector search (`app/services/langchain_service.py`) -/

/-- One raw search-engine hit: its `_score` plus the `_source` fields read by
the post-processing code.  Conversation times (ISO strings parsed with
`datetime.fromisoformat`) are modelled as comparable integers. -/
structure Hit where
  score : ℚ
  conversation_id : String
  customer_id : String
  customer_name : String
  advisor_id : String
  advisor_name : String
  conversation_time : ℤ
  summary : Option String
  mentioned_products : List String
  mentioned_industries : List String
  mentioned_topics : List String
  mentioned_complaints : List String
deriving DecidableEq, Repr

/-- The part of a search response the post-processing reads and rewrites:
`response["hits"]["hits"]` and `response["hits"]["total"]["value"]`. -/
structure SearchResponse where
  hits : List Hit
  total : ℕ
deriving DecidableEq, Repr

/-- The structure returned on an empty query vector and on total failure:
`{"hits": {"hits": [], "total": {"value": 0}}}`. -/
def emptyResponse : SearchResponse := ⟨[], 0⟩

/-- `dynamic_threshold = max(similarity_threshold * 0.8, 0.3)`. -/
def dynamic_threshold (t : ℚ) : ℚ := max (t * 0.8) 0.3

/-- The `for hit in response["hits"]["hits"]` loop of
`vector_search_conversations`: correct the score (minus 1.0 on the
script_score path), keep the hit when the corrected score reaches the
dynamic threshold, and store the corrected score back into the hit. -/
def correctAndFilter (used_script_score : Bool) (t : ℚ) : List Hit → List Hit
  | [] => []
  | h :: rest =>
    let actual_score := if used_script_score then h.score - 1.0 else h.score
    if dynamic_threshold t ≤ actual_score then
      { h with score := actual_score } :: correctAndFilter used_script_score t rest
    else
      correctAndFilter used_script_score t rest

/-- Descending order on hits by corrected score
(`filtered_hits.sort(key=lambda x: x["_score"], reverse=True)`). -/
def hitGE (a b : Hit) : Prop := b.score ≤ a.score

instance : DecidableRel hitGE := fun a b => inferInstanceAs (Decidable (b.score ≤ a.score))

instance : IsTotal Hit hitGE := ⟨fun a b => le_total b.score a.score⟩

instance : IsTrans Hit hitGE := ⟨fun _ _ _ h₁ h₂ => le_trans h₂ h₁⟩

/-- Stable descending sort of hits by score. -/
def sortHitsDesc (l : List Hit) : List Hit := List.insertionSort hitGE l

/-- Filtering, re-sorting and total correction applied to a successful
search response (`used` tells whether the script_score fallback produced it). -/
def processResults (used : Bool) (t : ℚ) (resp : SearchResponse) : SearchResponse :=
  let filtered_hits := sortHitsDesc (correctAndFilter used t resp.hits)
  { hits := filtered_hits, total := filtered_hits.length }

/-- Outcome of the two search-engine attempts inside
`vector_search_conversations`: the kNN query succeeded, the kNN query raised
and the script_score fallback succeeded, or both raised. -/
inductive ESOutcome where
  | knnOk (resp : SearchResponse)
  | scriptOk (resp : SearchResponse)
  | bothFail
deriving DecidableEq, Repr

/-- `vector_search_conversations(es_client, query_vector, filters, k,
similarity_threshold)`.  A falsy (`None` or empty) query vector returns the
empty structure before any search-engine call; otherwise the outcome of the
engine calls decides the branch, and failure of both returns the empty
structure from the outer `except`.  The `filters`/`k` arguments only shape
the query bodies sent to the engine and are absorbed into `outcome`. -/
def vector_search_conversations (query_vector : Option (List ℚ))
    (outcome : ESOutcome) (similarity_threshold : ℚ) : SearchResponse :=
  match query_vector with
  | none => emptyResponse
  | some [] => emptyResponse
  | some (_ :: _) =>
    match outcome with
    | .knnOk resp => processResults false similarity_threshold resp
    | .scriptOk resp => processResults true similarity_threshold resp
    | .bothFail => emptyResponse

/-! ## Weighted similarity and customer aggregation -/

/-- Descending order on rationals, for `sorted(scores, reverse=True)`. -/
def qGE (a b : ℚ) : Prop := b ≤ a

instance : DecidableRel qGE := fun a b => inferInstanceAs (Decidable (b ≤ a))

instance : IsTotal ℚ qGE := ⟨fun a b => le_total b a⟩

instance : IsTrans ℚ qGE := ⟨fun _ _ _ h₁ h₂ => le_trans h₂ h₁⟩

/-- `sorted(scores, reverse=True)`. -/
def sortScoresDesc (scores : List ℚ) : List ℚ := List.insertionSort qGE scores

/-- The `for i, score in enumerate(sorted_scores)` loop of
`calculate_weighted_similarity`: accumulates `(weighted_sum, total_weight)`
starting at index `i`. -/
def loopWeights : ℕ → List ℚ → ℚ × ℚ
  | _, [] => (0, 0)
  | i, score :: rest =>
    let weight := max 0.2 (1.0 - (i : ℚ) * 0.2)
    let acc := loopWeights (i + 1) rest
    (score * weight + acc.1, weight + acc.2)

/-- `calculate_weighted_similarity(scores)`. -/
def calculate_weighted_similarity (scores : List ℚ) : ℚ :=
  if scores = [] then 0
  else
    let sorted_scores := sortScoresDesc scores
    let acc := loopWeights 0 sorted_scores
    if 0 < acc.2 then acc.1 / acc.2 else 0

/-- The weight of the i-th ranked score, as the spec words it:
`wᵢ = max(0.2, 1.0 − i × 0.2)`. -/
def specWeight (i : ℕ) : ℚ := max 0.2 (1.0 - (i : ℚ) * 0.2)

/-- The weighted mean described by the spec: sort the scores descending,
weight the i-th ranked score by `specWeight i`, and divide the weighted sum
by the total weight. -/
def weightedMeanSpec (scores : List ℚ) : ℚ :=
  let sorted := sortScoresDesc scores
  (∑ i in Finset.range sorted.length, sorted.getD i 0 * specWeight i) /
    (∑ i in Finset.range sorted.length, specWeight i)

/-- Per-customer accumulator built by the grouping loop of
`aggregate_customer_data`.  The Python `set()` fields are modelled as
insertion-ordered duplicate-free lists. -/
structure CustomerAccum where
  customer_id : String
  customer_name : String
  advisor_id : String
  advisor_name : String
  conversations : List String
  conversation_times : List ℤ
  mentioned_products : List String
  mentioned_industries : List String
  mentioned_topics : List String
  mentioned_complaints : List String
  similarity_scores : List ℚ
  conversation_summaries : List String
deriving DecidableEq, Repr

/-- Add an element to a set modelled as a duplicate-free list. -/
def addUnique (s : List String) (x : String) : List String :=
  if x ∈ s then s else s ++ [x]

/-- Add many elements to a set modelled as a duplicate-free list. -/
def addAllUnique (s : List String) (xs : List String) : List String :=
  xs.foldl addUnique s

/-- The fresh accumulator inserted when a customer_id is first seen. -/
def initAccum (h : Hit) : CustomerAccum :=
  { customer_id := h.customer_id, customer_name := h.customer_name
    advisor_id := h.advisor_id, advisor_name := h.advisor_name
    conversations := [], conversation_times := []
    mentioned_products := [], mentioned_industries := []
    mentioned_topics := [], mentioned_complaints := []
    similarity_scores := [], conversation_summaries := [] }

/-- The per-hit accumulation: append ids/times/scores, append the summary
when truthy, and union the mention sets. -/
def appendHit (a : CustomerAccum) (h : Hit) : CustomerAccum :=
  { a with
    conversations := a.conversations ++ [h.conversation_id]
    conversation_times := a.conversation_times ++ [h.conversation_time]
    similarity_scores := a.similarity_scores ++ [h.score]
    conversation_summaries := a.conversation_summaries ++
      (match h.summary with
       | some s => if s = "" then [] else [s]
       | none => [])
    mentioned_products := addAllUnique a.mentioned_products h.mentioned_products
    mentioned_industries := addAllUnique a.mentioned_industries h.mentioned_industries
    mentioned_topics := addAllUnique a.mentioned_topics h.mentioned_topics
    mentioned_complaints := addAllUnique a.mentioned_complaints h.mentioned_complaints }

/-- One step of the grouping loop over `customer_data` (a Python dict in
insertion order, modelled as an association list): update the entry of the
hit's customer_id or append a fresh one. -/
def updateAccums (h : Hit) : List (String × CustomerAccum) → List (String × CustomerAccum)
  | [] => [(h.customer_id, appendHit (initAccum h) h)]
  | (k, a) :: rest =>
    if k = h.customer_id then (k, appendHit a h) :: rest
    else (k, a) :: updateAccums h rest

/-- The grouping loop of `aggregate_customer_data`. -/
def groupHits (hits : List Hit) : List (String × CustomerAccum) :=
  hits.foldl (fun acc h => updateAccums h acc) []

/-- Python `max(seq)`/`min(seq)` over the collected conversation times. -/
def maxTime : List ℤ → ℤ
  | [] => 0
  | t :: ts => ts.foldl max t

/-- Minimum of a non-empty time list. -/
def minTime : List ℤ → ℤ
  | [] => 0
  | t :: ts => ts.foldl min t

/-- One aggregated customer record of `aggregate_customer_data`. -/
structure CustomerAgg where
  customer_id : String
  customer_name : String
  advisor_id : String
  advisor_name : String
  conversation_count : ℕ
  latest_conversation_time : ℤ
  earliest_conversation_time : ℤ
  conversation_summaries : List String
  mentioned_products : List String
  mentioned_industries : List String
  mentioned_topics : List String
  mentioned_complaints : List String
  similarity_score : ℚ
  matched_conversations : List String
deriving DecidableEq, Repr

/-- Build the result record for one accumulated customer. -/
def buildAgg (a : CustomerAccum) : CustomerAgg :=
  { customer_id := a.customer_id, customer_name := a.customer_name
    advisor_id := a.advisor_id, advisor_name := a.advisor_name
    conversation_count := a.conversations.length
    latest_conversation_time := maxTime a.conversation_times
    earliest_conversation_time := minTime a.conversation_times
    conversation_summaries := a.conversation_summaries.take 5
    mentioned_products := a.mentioned_products
    mentioned_industries := a.mentioned_industries
    mentioned_topics := a.mentioned_topics
    mentioned_complaints := a.mentioned_complaints
    similarity_score := calculate_weighted_similarity a.similarity_scores
    matched_conversations := a.conversations }

/-- Descending lexicographic order on `(similarity_score, conversation_count)`
(`result.sort(key=lambda x: (x["similarity_score"], x["conversation_count"]),
reverse=True)`). -/
def aggGE (a b : CustomerAgg) : Prop :=
  b.similarity_score < a.similarity_score ∨
    (b.similarity_score = a.similarity_score ∧ b.conversation_count ≤ a.conversation_count)

instance : DecidableRel aggGE := fun _ _ =>
  inferInstanceAs (Decidable (_ ∨ _))

instance : IsTotal CustomerAgg aggGE :=
  ⟨fun a b => by
    rcases lt_trichotomy a.similarity_score b.similarity_score with h | h | h
    · exact Or.inr (Or.inl h)
    · rcases le_total b.conversation_count a.conversation_count with hc | hc
      · exact Or.inl (Or.inr ⟨h.symm, hc⟩)
      · exact Or.inr (Or.inr ⟨h, hc⟩)
    · exact Or.inl (Or.inl h)⟩

instance : IsTrans CustomerAgg aggGE :=
  ⟨fun a b c hab hbc => by
    rcases hab with h₁ | ⟨h₁, h₁c⟩ <;> rcases hbc with h₂ | ⟨h₂, h₂c⟩
    · exact Or.inl (lt_trans h₂ h₁)
    · exact Or.inl (h₂ ▸ h₁)
    · exact Or.inl (h₁ ▸ h₂)
    · exact Or.inr ⟨h₂.trans h₁, le_trans h₂c h₁c⟩⟩

/-- Stable descending sort of aggregated customers. -/
def sortAggsDesc (l : List CustomerAgg) : List CustomerAgg := List.insertionSort aggGE l

/-- `aggregate_customer_data(search_results)`: group the hits by customer_id,
build one record per customer, and sort by weighted similarity then
conversation count, descending. -/
def aggregate_customer_data (search_results : SearchResponse) : List CustomerAgg :=
  sortAggsDesc ((groupHits search_results.hits).map (fun p => buildAgg p.2))

/-! ## JSON values and the query translator (`convert_nl_to_es_query`) -/

/-- JSON values as produced by `json.loads`; objects are association lists in
key order (`json.loads` never yields duplicate keys). -/
inductive Json where
  | str (s : String)
  | num (q : ℚ)
  | bool (b : Bool)
  | null
  | arr (xs : List Json)
  | obj (fields : List (String × Json))

/-- Dictionary lookup (first matching key). -/
def objGet : List (String × Json) → String → Option Json
  | [], _ => none
  | (k, v) :: rest, key => if k = key then some v else objGet rest key

/-- Dictionary assignment: replace the first matching key or append. -/
def objSet : List (String × Json) → String → Json → List (String × Json)
  | [], key, v => [(key, v)]
  | (k, w) :: rest, key, v =>
    if k = key then (k, v) :: rest else (k, w) :: objSet rest key v

/-- Equality test of a JSON value against a Python string (only a JSON string
can equal a string). -/
def jsonIsStr (j : Json) (s : String) : Bool :=
  match j with
  | .str t => t == s
  | _ => false

/-- Substring test, for Python's `key in some_string`. -/
def strContains (hay needle : String) : Bool :=
  decide (needle.data <:+: hay.data)

/-- Python's `key in j` for the values `json.loads` can produce: key
membership on a dict, element equality on a list, substring test on a string;
`none` models the `TypeError` raised on numbers, booleans and `None`. -/
def pyContains (j : Json) (key : String) : Option Bool :=
  match j with
  | .obj fs => some (objGet fs key).isSome
  | .arr xs => some (xs.any (fun x => jsonIsStr x key))
  | .str s => some (strContains s key)
  | _ => none

/-- Python's `j[key]`: only a dict supports string subscripts; `none` models
both the `TypeError` on other values and a `KeyError` on a missing key. -/
def pySubscr (j : Json) (key : String) : Option Json :=
  match j with
  | .obj fs => objGet fs key
  | _ => none

/-- The highlight block attached to every translated query. -/
def highlightJson : Json :=
  .obj [("fields", .obj [("full_content", .obj []),
                         ("messages.content", .obj []),
                         ("summary", .obj [])]),
        ("pre_tags", .arr [.str ("<em>")]),
        ("post_tags", .arr [.str ("</em>")])]

/-- The single match clause of the fallback query. -/
def matchClause (query_text : String) : Json :=
  .obj [("match", .obj [("full_content", .str query_text)])]

/-- The deterministic fallback query returned on any parse or provider
failure. -/
def fallbackQuery (query_text : String) : Json :=
  .obj [("query", .obj [("bool", .obj [("must", .arr [matchClause query_text])])]),
        ("highlight", highlightJson)]

/-- The `re.search(r'\{[\s\S]*\}', es_query_str)` cleanup: the substring from
the first `\x7b` to the last `\x7d` after it, or the whole string when the
pattern does not match. -/
def extractJsonBlock (s : String) : String :=
  let fromBrace := s.data.dropWhile (fun c => c != '{')
  let upto := (fromBrace.reverse.dropWhile (fun c => c != '}')).reverse
  if upto = [] then s else String.mk upto

/-- The normalization applied to a successfully parsed provider response:
wrap into `query`/`bool`/`must` as needed and attach the highlight block.
`none` models any `TypeError`/`KeyError` escaping to the outer `except`
(which returns the fallback query). -/
def normalizeQuery (parsed : Json) : Option Json := do
  let hasQuery ← pyContains parsed ("query")
  let es1 := if hasQuery then parsed else Json.obj [("query", parsed)]
  let q1 ← pySubscr es1 ("query")
  let hasBool ← pyContains q1 ("bool")
  let es2 ←
    if hasBool then some es1
    else
      match es1 with
      | .obj fs =>
        some (Json.obj (objSet fs ("query")
          (Json.obj [("bool", Json.obj [("must", Json.arr [q1])])])))
      | _ => none
  let q2 ← pySubscr es2 ("query")
  let b ← pySubscr q2 ("bool")
  let hasMust ← pyContains b ("must")
  let es3 ←
    if hasMust then some es2
    else
      match es2, q2, b with
      | .obj efs, .obj qfs, .obj bfs =>
        some (Json.obj (objSet efs ("query")
          (Json.obj (objSet qfs ("bool")
            (Json.obj (objSet bfs ("must") (Json.arr [])))))))
      | _, _, _ => none
  match es3 with
  | .obj fs => some (Json.obj (objSet fs ("highlight") highlightJson))
  | _ => none

/-- Outcome of the provider call `chat_model.ainvoke(...)`: the response text,
or an exception. -/
inductive ProviderOutcome where
  | ok (content : String)
  | raised

/-- A value passed in a `convert_nl_to_es_query(...)` argument position.
Python is dynamically typed, so a call site may pass either the query text or
the client object in either position; the insights endpoint does swap them. -/
inductive ClientVal where
  | client (o : ProviderOutcome)
  | strVal (s : String)

/-- The text of an argument when it is used as the query text.  The
`client` case only arises on the swapped call, which raises before any use
of the query text, so the placeholder is never observable. -/
def textOf : ClientVal → String
  | .strVal s => s
  | .client _ => "<client>"

/-- The message of the `TypeError` raised by `client["chat_model"]` when
`client` is a string (CPython's wording varies slightly across versions; no
claim depends on it). -/
def typeErrorMsg : String := "string indices must be integers"

/-- `convert_nl_to_es_query(query_text, client)`.  `client["chat_model"]` is
evaluated before the `try` block, so a string in the client position raises a
`TypeError` that propagates to the caller.  Inside the `try`, a provider
exception, a JSON parse failure, or a normalization `TypeError`/`KeyError`
all return the deterministic fallback query.  `parse` models `json.loads`
(returning `none` on `json.JSONDecodeError`). -/
def convert_nl_to_es_query (query_text client : ClientVal)
    (parse : String → Option Json) : Except String Json :=
  match client with
  | .strVal _ => .error typeErrorMsg
  | .client outcome =>
    match outcome with
    | .raised => .ok (fallbackQuery (textOf query_text))
    | .ok content =>
      let es_query_str := extractJsonBlock content
      match parse es_query_str with
      | none => .ok (fallbackQuery (textOf query_text))
      | some parsed =>
        match normalizeQuery parsed with
        | some q => .ok q
        | none => .ok (fallbackQuery (textOf query_text))

/-! ## Insights endpoint (`get_conversation_insights`) -/

/-- Request body shared by the search/insights endpoints
(`ConversationSearchQuery`); times are modelled as integers. -/
structure InsightsReq where
  query_text : String
  advisor_id : Option String
  start_time : Option ℤ
  end_time : Option ℤ
deriving Repr

/-- The base filter clauses: an advisor term filter (skipped when the advisor
id is falsy or the literal "all") and a conversation-time range filter. -/
def mustClauses (req : InsightsReq) : List Json :=
  (match req.advisor_id with
   | some a => if a ≠ "" ∧ a ≠ "all" then [Json.obj [("term", Json.obj [("advisor_id", Json.str a)])]] else []
   | none => []) ++
  (if req.start_time.isSome ∨ req.end_time.isSome then
    [Json.obj [("range", Json.obj [("conversation_time", Json.obj
      ((match req.start_time with | some t => [("gte", Json.num (t : ℚ))] | none => []) ++
       (match req.end_time with | some t => [("lte", Json.num (t : ℚ))] | none => [])))])]]
   else [])

/-- One term/count pair of a top-terms aggregation bucket. -/
structure TermCount where
  term : String
  count : ℕ
deriving DecidableEq, Repr

/-- Response body of `POST /conversations/insights`. -/
structure Insights where
  topics : List TermCount
  industries : List TermCount
  products : List TermCount
  complaints : List TermCount
deriving DecidableEq, Repr

/-- The `insight_query["query"]["bool"]["must"]` path read when merging the
translated clauses into the base query. -/
def mustOf (j : Json) : Option (List Json) :=
  match pySubscr j ("query") with
  | none => none
  | some q =>
    match pySubscr q ("bool") with
    | none => none
    | some b =>
      match pySubscr b ("must") with
      | some (.arr xs) => some xs
      | _ => none

/-- `get_conversation_insights`.  The handler builds the base filter set and,
when `query_text` is non-empty, calls
`convert_nl_to_es_query(langchain_client, query.query_text)` — note the
swapped argument order against the wrapper signature
`convert_nl_to_es_query(query_text, client)` at
`app/api/endpoints/conversation_search.py:116` — then runs the four
top-terms aggregations (modelled by the oracle `aggs`, which maps a field
name and the final query to the engine's buckets).  Any exception from the
body is caught and re-raised as HTTP 500. -/
def get_conversation_insights (req : InsightsReq) (c : ProviderOutcome)
    (parse : String → Option Json) (aggs : String → Json → List TermCount) :
    Except HTTPErr Insights :=
  let body : Except String Insights := do
    let baseMust := mustClauses req
    let finalMust ←
      if req.query_text ≠ "" then do
        let insight_query ← convert_nl_to_es_query (.client c) (.strVal req.query_text) parse
        match mustOf insight_query with
        | some clauses => Except.ok (baseMust ++ clauses)
        | none => Except.error typeErrorMsg
      else
        Except.ok baseMust
    let base_query := Json.obj [("query", Json.obj [("bool", Json.obj [("must", Json.arr finalMust)])])]
    Except.ok
      { topics := aggs ("mentioned_topics") base_query
        industries := aggs ("mentioned_industries") base_query
        products := aggs ("mentioned_products") base_query
        complaints := aggs ("mentioned_complaints") base_query }
  match body with
  | .ok r => .ok r
  | .error m => .error ⟨500, "获取会话洞察失败: " ++ m⟩

/-! ## Safe calculator (`app/tools/math_tools.py`) -/

/-- A Python numeric value as handled by `SafeMathEvaluator`: `int`, `float`
(modelled exactly over `ℚ`), or `bool` (a subclass of `int` in Python, so it
passes the `isinstance(value, (int, float))` check). -/
inductive PyNum where
  | int (n : ℤ)
  | float (q : ℚ)
  | bool (b : Bool)
deriving DecidableEq, Repr

/-- Numeric value of a `PyNum`. -/
def PyNum.toQ : PyNum → ℚ
  | .int n => (n : ℚ)
  | .float q => q
  | .bool b => if b then 1 else 0

/-- Integer value of an int-like `PyNum` (the `float` case is unreachable at
its call sites, which branch on `isFloat` first). -/
def PyNum.toZ : PyNum → ℤ
  | .int n => n
  | .float q => q.num
  | .bool b => if b then 1 else 0

/-- Whether the value is a Python `float`. -/
def PyNum.isFloat : PyNum → Bool
  | .float _ => true
  | _ => false

/-- `operator.add`: int-like operands give an `int`, otherwise a `float`. -/
def pyAdd (a b : PyNum) : PyNum :=
  if a.isFloat || b.isFloat then .float (a.toQ + b.toQ) else .int (a.toZ + b.toZ)

/-- `operator.sub`. -/
def pySub (a b : PyNum) : PyNum :=
  if a.isFloat || b.isFloat then .float (a.toQ - b.toQ) else .int (a.toZ - b.toZ)

/-- `operator.mul`. -/
def pyMul (a b : PyNum) : PyNum :=
  if a.isFloat || b.isFloat then .float (a.toQ * b.toQ) else .int (a.toZ * b.toZ)

/-- `operator.truediv`: always a `float`; zero divisor raises
`ZeroDivisionError`. -/
def pyDiv (a b : PyNum) : Except String PyNum :=
  if b.toQ = 0 then .error ("division by zero")
  else .ok (.float (a.toQ / b.toQ))

/-- `operator.mod`: floor-style remainder (sign of the divisor), as in
Python; zero divisor raises. -/
def pyMod (a b : PyNum) : Except String PyNum :=
  if b.toQ = 0 then .error ("modulo by zero")
  else if a.isFloat || b.isFloat then
    .ok (.float (a.toQ - b.toQ * (⌊a.toQ / b.toQ⌋ : ℤ)))
  else
    .ok (.int (Int.fmod a.toZ b.toZ))

/-- `operator.pow`.  Integer exponents are exact; a `float` exponent with a
non-integral value would produce an irrational result, which the exact
`ℚ` model cannot represent and reports as an error (no claim exercises that
case). -/
def pyPow (a b : PyNum) : Except String PyNum :=
  match b with
  | .float e =>
    if e.den = 1 then
      if a.toQ = 0 ∧ e.num < 0 then .error ("0.0 cannot be raised to a negative power")
      else .ok (.float (a.toQ ^ e.num))
    else .error ("irrational result not representable in the exact model")
  | _ =>
    let n := b.toZ
    if a.isFloat then
      if a.toQ = 0 ∧ n < 0 then .error ("0.0 cannot be raised to a negative power")
      else .ok (.float (a.toQ ^ n))
    else
      if 0 ≤ n then .ok (.int (a.toZ ^ n.toNat))
      else if a.toZ = 0 then .error ("0.0 cannot be raised to a negative power")
      else .ok (.float (a.toQ ^ n))

/-- `operator.neg` (`-True` is the int `-1`). -/
def pyNeg : PyNum → PyNum
  | .int n => .int (-n)
  | .float q => .float (-q)
  | .bool b => .int (-(if b then 1 else 0))

/-- `operator.pos` (`+True` is the int `1`). -/
def pyPos : PyNum → PyNum
  | .int n => .int n
  | .float q => .float q
  | .bool b => .int (if b then 1 else 0)

/-- The binary-operator node kinds of the Python `ast` module. -/
inductive BinOpKind where
  | add | sub | mult | div | pow | mod
  | floorDiv | lshift | rshift | bitOr | bitXor | bitAnd | matMult
deriving DecidableEq, Repr

/-- The unary-operator node kinds of the Python `ast` module. -/
inductive UnaryOpKind where
  | uadd | usub | notOp | invert
deriving DecidableEq, Repr

/-- The `OPERATORS` dict restricted to binary operators: the six supported
kinds map to their operator functions, everything else is absent. -/
def binOpFn : BinOpKind → Option (PyNum → PyNum → Except String PyNum)
  | .add => some (fun a b => .ok (pyAdd a b))
  | .sub => some (fun a b => .ok (pySub a b))
  | .mult => some (fun a b => .ok (pyMul a b))
  | .div => some pyDiv
  | .pow => some pyPow
  | .mod => some pyMod
  | _ => none

/-- The `OPERATORS` dict restricted to unary operators. -/
def unaryOpFn : UnaryOpKind → Option (PyNum → Except String PyNum)
  | .uadd => some (fun a => .ok (pyPos a))
  | .usub => some (fun a => .ok (pyNeg a))
  | _ => none

/-- A literal in an `ast.Constant` node: a number (including booleans), or a
constant of any other type (string, bytes, None, Ellipsis, complex), which
`_eval_node` rejects. -/
inductive PyConst where
  | num (v : PyNum)
  | otherConst (typeName : String)
deriving DecidableEq, Repr

/-- The function position of an `ast.Call`: the evaluator only reads
`node.func.id` when the function is a plain name, and otherwise uses `None`. -/
inductive CallFunc where
  | byName (id : String)
  | notAName (desc : String)
deriving DecidableEq, Repr

/-- Python expression AST as visited by `SafeMathEvaluator._eval_node`.
`other` stands for every remaining node kind (comparisons, attribute access,
subscripts, lambdas, starred arguments, ...), all of which fall into the
evaluator's catch-all error branch.  Keyword arguments of a call are carried
because Python's grammar allows them, but `_eval_node` never reads
`node.keywords`. -/
inductive Expr where
  | constant (c : PyConst)
  | name (id : String)
  | binop (op : BinOpKind) (left right : Expr)
  | unaryop (op : UnaryOpKind) (operand : Expr)
  | call (func : CallFunc) (args : List Expr) (keywords : List (String × Expr))
  | other (desc : String)

/-- `abs` with exactly one numeric argument. -/
def pyAbsCall : List PyNum → Except String PyNum
  | [.int n] => .ok (.int |n|)
  | [.float q] => .ok (.float |q|)
  | [.bool b] => .ok (.int (if b then 1 else 0))
  | _ => .error ("abs() takes exactly one argument")

/-- Round half to even on an exact rational, as Python's `round` does. -/
def roundHalfEven (q : ℚ) : ℤ :=
  let f := ⌊q⌋
  let r := q - (f : ℚ)
  if r < 1 / 2 then f
  else if 1 / 2 < r then f + 1
  else if f % 2 = 0 then f else f + 1

/-- `round(x, d)` for an integer `d`: an `int` input stays an `int`
(rounded to a multiple of a power of ten for negative `d`), a `float` input
stays a `float`. -/
def roundWith (x : PyNum) (d : ℤ) : PyNum :=
  match x with
  | .float q => .float ((roundHalfEven (q * (10 : ℚ) ^ d) : ℚ) / (10 : ℚ) ^ d)
  | _ =>
    let n := x.toZ
    if 0 ≤ d then .int n
    else .int (roundHalfEven ((n : ℚ) / (10 : ℚ) ^ (-d).toNat) * (10 : ℤ) ^ (-d).toNat)

/-- `round` with one or two arguments; `ndigits` must be int-like. -/
def pyRoundCall : List PyNum → Except String PyNum
  | [.int n] => .ok (.int n)
  | [.bool b] => .ok (.int (if b then 1 else 0))
  | [.float q] => .ok (.int (roundHalfEven q))
  | [x, .int d] => .ok (roundWith x d)
  | [x, .bool b] => .ok (roundWith x (if b then 1 else 0))
  | [_, .float _] => .error ("'float' object cannot be interpreted as an integer")
  | [] => .error ("round() missing required argument")
  | _ => .error ("round() takes at most 2 arguments")

/-- `max(*args)`: with two or more numeric arguments it returns the first
maximal one; a single numeric argument is not iterable and raises. -/
def pyMaxCall : List PyNum → Except String PyNum
  | [] => .error ("max expected at least 1 argument, got 0")
  | [_] => .error ("'int' object is not iterable")
  | x :: rest => .ok (rest.foldl (fun acc y => if acc.toQ < y.toQ then y else acc) x)

/-- `min(*args)`, symmetric to `max`. -/
def pyMinCall : List PyNum → Except String PyNum
  | [] => .error ("min expected at least 1 argument, got 0")
  | [_] => .error ("'int' object is not iterable")
  | x :: rest => .ok (rest.foldl (fun acc y => if y.toQ < acc.toQ then y else acc) x)

/-- `sum(*args)`: the evaluator always passes numbers positionally, so the
first argument is used as the iterable and raises `TypeError` (with no
arguments, the required argument is missing). -/
def pySumCall : List PyNum → Except String PyNum
  | [] => .error ("sum() takes at least 1 positional argument (0 given)")
  | _ => .error ("'int' object is not iterable")

/-- The `FUNCTIONS` dict of `SafeMathEvaluator`. -/
def pyFunction (name : String) : Option (List PyNum → Except String PyNum) :=
  if name = "abs" then some pyAbsCall
  else if name = "round" then some pyRoundCall
  else if name = "max" then some pyMaxCall
  else if name = "min" then some pyMinCall
  else if name = "sum" then some pySumCall
  else none

/-- The value of the constant `pi` as written in the source (the decimal
literal taken exactly). -/
def piVal : ℚ := 3.141592653589793

/-- The value of the constant `e` as written in the source. -/
def eVal : ℚ := 2.718281828459045

mutual

/-- `SafeMathEvaluator._eval_node`: recursive evaluation of the AST, raising
(`.error`) on every non-whitelisted construct it reaches. -/
def evalNode : Expr → Except String PyNum
  | .constant (.num v) => .ok v
  | .constant (.otherConst d) => .error ("不支持的常量类型: " ++ d)
  | .name id =>
    if id = "pi" then .ok (.float piVal)
    else if id = "e" then .ok (.float eVal)
    else .error ("不支持的变量: " ++ id)
  | .binop op l r => do
    let lv ← evalNode l
    let rv ← evalNode r
    match binOpFn op with
    | none => .error ("不支持的操作符")
    | some f => f lv rv
  | .unaryop op e => do
    let v ← evalNode e
    match unaryOpFn op with
    | none => .error ("不支持的一元操作符")
    | some f => f v
  | .call fn args _keywords =>
    match fn with
    | .byName id =>
      match pyFunction id with
      | none => .error ("不支持的函数: " ++ id)
      | some f => do
        let vs ← evalArgs args
        f vs
    | .notAName _ => .error ("不支持的函数: None")
  | .other d => .error ("不支持的节点类型: " ++ d)

/-- The `[self._eval_node(arg) for arg in node.args]` comprehension. -/
def evalArgs : List Expr → Except String (List PyNum)
  | [] => .ok []
  | a :: rest => do
    let v ← evalNode a
    let vs ← evalArgs rest
    .ok (v :: vs)

end

/-- Drop trailing zero characters. -/
def dropTrailingZeros (s : String) : String :=
  String.mk ((s.data.reverse.dropWhile (fun c => c == '0')).reverse)

/-- Least `k ≥ 1` with `1 ≤ q * 10^k`, for `0 < q < 1` (fuel-bounded scan). -/
def smallExp (q : ℚ) : ℕ → ℕ
  | 0 => 0
  | fuel + 1 => if 1 ≤ q * 10 then 1 else smallExp (q * 10) fuel + 1

/-- Decimal exponent of a positive rational: the `e` with `10^e ≤ q < 10^(e+1)`. -/
def decExp (q : ℚ) : ℤ :=
  if 1 ≤ q then (Nat.log 10 ⌊q⌋.toNat : ℤ)
  else -(smallExp q (Nat.log 10 q.den + 2) : ℤ)

/-- Python's `f"{result:.6g}"` on the exact-rational model: round to six
significant decimal digits (half to even) and render in fixed or exponent
notation per the `%g` rules, stripping trailing zeros. -/
def formatG6 (q : ℚ) : String :=
  if q = 0 then ("0")
  else
    let sign := if q < 0 then ("-") else ("")
    let aq := |q|
    let e0 := decExp aq
    let m0 := roundHalfEven (aq * (10 : ℚ) ^ (5 - e0))
    let m := if m0 = 10 ^ 6 then (10 : ℤ) ^ 5 else m0
    let e := if m0 = 10 ^ 6 then e0 + 1 else e0
    let ds := toString m.toNat
    if -4 ≤ e ∧ e < 6 then
      if 0 ≤ e then
        let intPart := ds.take (e.toNat + 1)
        let fracPart := dropTrailingZeros (ds.drop (e.toNat + 1))
        sign ++ (if fracPart = "" then intPart else intPart ++ "." ++ fracPart)
      else
        let zeros := String.mk (List.replicate (-(e + 1)).toNat '0')
        sign ++ ("0." ++ dropTrailingZeros (zeros ++ ds))
    else
      let fp := dropTrailingZeros (ds.drop 1)
      let mant := ds.take 1 ++ (if fp = "" then ("") else ("." ++ fp))
      let esign := if e < 0 then ("-") else ("+")
      let eabs := (if e < 0 then -e else e).toNat
      let estr := if eabs < 10 then ("0") ++ toString eabs else toString eabs
      sign ++ (mant ++ ("e" ++ (esign ++ estr)))

/-- The result formatting of `safe_calculator`: an integral float renders
without a decimal point, any other float to at most six significant digits,
and other values through `str(...)`. -/
def formatResult : PyNum → String
  | .float q => if q.den = 1 then toString q.num else formatG6 q
  | .int n => toString n
  | .bool b => if b then ("True") else ("False")

/-- `safe_calculator(expression)`: evaluate and format, turning every raised
error into the string `计算错误: 表达式解析错误: <detail>` (the `evaluate`
wrapper re-raises everything as `表达式解析错误`, and the tool prepends
`计算错误`). -/
def safe_calculator (expr : Expr) : String :=
  match evalNode expr with
  | .ok result => formatResult result
  | .error m => "计算错误: " ++ ("表达式解析错误: " ++ m)

mutual

/-- Whether the tree walk of `_eval_node` reaches a non-whitelisted
construct: a non-numeric constant, a name other than `pi`/`e`, an operator
outside the `OPERATORS` dict, a call whose function is not one of the five
whitelisted names, or any other node kind — in an evaluated position
(keyword-argument values are never visited). -/
def reachesBad : Expr → Bool
  | .constant (.num _) => false
  | .constant (.otherConst _) => true
  | .name id => !(id == "pi" || id == "e")
  | .binop op l r => (binOpFn op).isNone || reachesBad l || reachesBad r
  | .unaryop op e => (unaryOpFn op).isNone || reachesBad e
  | .call fn args _keywords =>
    (match fn with
     | .byName id => (pyFunction id).isNone
     | .notAName _ => true) || reachesBadList args
  | .other _ => true

/-- `reachesBad` over an argument list. -/
def reachesBadList : List Expr → Bool
  | [] => false
  | a :: rest => reachesBad a || reachesBadList rest

end

mutual

/-- Whether the expression contains a non-whitelisted construct anywhere,
including inside keyword-argument values (the reading of the original
claim). -/
def containsBad : Expr → Bool
  | .constant (.num _) => false
  | .constant (.otherConst _) => true
  | .name id => !(id == "pi" || id == "e")
  | .binop op l r => (binOpFn op).isNone || containsBad l || containsBad r
  | .unaryop op e => (unaryOpFn op).isNone || containsBad e
  | .call fn args keywords =>
    (match fn with
     | .byName id => (pyFunction id).isNone
     | .notAName _ => true) || containsBadList args || containsBadKw keywords
  | .other _ => true

/-- `containsBad` over an argument list. -/
def containsBadList : List Expr → Bool
  | [] => false
  | a :: rest => containsBad a || containsBadList rest

/-- `containsBad` over keyword arguments. -/
def containsBadKw : List (String × Expr) → Bool
  | [] => false
  | kv :: rest => containsBad kv.2 || containsBadKw rest

end

/-! ## Vector customer search endpoint (`vector_search_customers`) -/

/-- Request body of `POST /conversations/vector-search-customers`
(`CustomerVectorSearchQuery`); times as integers, pagination as naturals. -/
structure VectorSearchReq where
  query_text : String
  advisor_id : Option String
  start_time : Option ℤ
  end_time : Option ℤ
  page : ℕ
  page_size : ℕ
  similarity_threshold : ℚ
  k : ℕ
deriving Repr

/-- The advisor/time filters of the vector search: a single clause is passed
through directly, several are combined under a boolean `must`. -/
def buildVectorFilters (req : VectorSearchReq) : Option Json :=
  let filters : List Json :=
    (match req.advisor_id with
     | some a => if a ≠ "" ∧ a ≠ "all" then [Json.obj [("term", Json.obj [("advisor_id", Json.str a)])]] else []
     | none => []) ++
    (if req.start_time.isSome ∨ req.end_time.isSome then
      [Json.obj [("range", Json.obj [("conversation_time", Json.obj
        ((match req.start_time with | some t => [("gte", Json.num (t : ℚ))] | none => []) ++
         (match req.end_time with | some t => [("lte", Json.num (t : ℚ))] | none => [])))])]]
     else [])
  match filters with
  | [] => none
  | [f] => some f
  | fs => some (Json.obj [("bool", Json.obj [("must", Json.arr fs)])])

/-- The `query_info` diagnostics block of the vector search response. -/
structure QueryInfo where
  original_query : String
  processed_query : String
  similarity_threshold : ℚ
  k : ℕ
  vector_dimension : ℕ
  total_matches : ℕ
  filtered_matches : ℕ
deriving DecidableEq, Repr

/-- Response body of `POST /conversations/vector-search-customers`. -/
structure VectorSearchResult where
  total : ℕ
  customers : List CustomerAgg
  query_info : QueryInfo
deriving DecidableEq, Repr

/-- An exception escaping the handler body: an `HTTPException`, or any other
exception. -/
inductive HandlerExc where
  | http (e : HTTPErr)
  | generic (msg : String)

/-- The body of the `vector_search_customers` handler: raise 400 when no
query vector could be generated (a falsy vector), otherwise run the vector
search, aggregate by customer, and paginate.  `vec`/`processed_query` model
the pair returned by `generate_query_vector_with_preprocessing`, `outcome`
the search engine's behaviour. -/
def vector_search_customers_body (req : VectorSearchReq)
    (vec : Option (List ℚ)) (processed_query : String) (outcome : ESOutcome) :
    Except HandlerExc VectorSearchResult :=
  match vec with
  | none => .error (.http ⟨400, "无法生成查询向量"⟩)
  | some [] => .error (.http ⟨400, "无法生成查询向量"⟩)
  | some (q0 :: qrest) =>
    let query_vector := q0 :: qrest
    let search_results :=
      vector_search_conversations (some query_vector) outcome req.similarity_threshold
    let customers_data := aggregate_customer_data search_results
    let start_idx := (req.page - 1) * req.page_size
    let paginated_customers := (customers_data.drop start_idx).take req.page_size
    .ok
      { total := customers_data.length
        customers := paginated_customers
        query_info :=
          { original_query := req.query_text
            processed_query := processed_query
            similarity_threshold := req.similarity_threshold
            k := req.k
            vector_dimension := query_vector.length
            total_matches := search_results.total
            filtered_matches := search_results.hits.length } }

/-- The `vector_search_customers` handler with its exception clauses:
`except HTTPException: raise` re-raises HTTP errors unchanged (so the 400 is
not converted), and `except Exception` wraps anything else into a 500. -/
def vector_search_customers (req : VectorSearchReq) (vec : Option (List ℚ))
    (processed_query : String) (outcome : ESOutcome) :
    Except HTTPErr VectorSearchResult :=
  match vector_search_customers_body req vec processed_query outcome with
  | .ok r => .ok r
  | .error (.http e) => .error e
  | .error (.generic m) => .error ⟨500, "向量搜索客户失败: " ++ m⟩

/-! ## Claim theorems -/

/-- C10: `vector_search_conversations` never raises to its caller: a `None`
or empty query vector returns the empty result structure without any
search-engine call (the result is independent of the engine outcome), and
when both the kNN query and the script_score fallback fail it returns the
same empty structure. -/
theorem vector_search_conversations_safe_empty :
    ∀ (outcome : ESOutcome) (t : ℚ) (v : List ℚ),
      vector_search_conversations none outcome t = emptyResponse ∧
      vector_search_conversations (some []) outcome t = emptyResponse ∧
      vector_search_conversations (some v) .bothFail t = emptyResponse := by
  intro outcome t v
  refine ⟨rfl, rfl, ?_⟩
  cases v <;> rfl

/-- C9: a `POST /conversations/vector-search-customers` request for which no
query embedding vector can be generated answers HTTP 400 with detail
`无法生成查询向量`, and the `except HTTPException: raise` clause re-raises it
unchanged instead of converting it into the generic 500. -/
theorem vector_search_customers_no_vector_400 :
    ∀ (req : VectorSearchReq) (processed : String) (outcome : ESOutcome),
      vector_search_customers req none processed outcome =
        .error ⟨400, "无法生成查询向量"⟩ ∧
      vector_search_customers req (some []) processed outcome =
        .error ⟨400, "无法生成查询向量"⟩ ∧
      strContains ("无法生成查询向量") ("无法生成查询向量") = true := by
  intro req processed outcome
  exact ⟨rfl, rfl, by decide⟩

/-- C3: whenever the provider call raises, or its response (after the
`\x7b...\x7d` cleanup) fails to parse as JSON, `convert_nl_to_es_query`
returns — without raising — the deterministic fallback query, whose
`query.bool.must` is exactly the one `match` clause on `full_content` with
the original query text and which carries the standard highlight block. -/
theorem convert_nl_to_es_query_fallback :
    ∀ (query_text : String) (parse : String → Option Json) (content : String),
      convert_nl_to_es_query (.strVal query_text) (.client .raised) parse =
        .ok (fallbackQuery query_text) ∧
      (parse (extractJsonBlock content) = none →
        convert_nl_to_es_query (.strVal query_text) (.client (.ok content)) parse =
          .ok (fallbackQuery query_text)) ∧
      mustOf (fallbackQuery query_text) = some [matchClause query_text] ∧
      pySubscr (fallbackQuery query_text) ("highlight") = some highlightJson := by
  intro query_text parse content
  refine ⟨rfl, ?_, rfl, rfl⟩
  intro h
  simp only [convert_nl_to_es_query, h]
  rfl

/-- Witness for C3 at a concrete query, unparsable response and failing
parser. -/
theorem convert_nl_to_es_query_fallback_witness :
    convert_nl_to_es_query (.strVal ("高净值客户")) (.client (.ok ("对不起，我不能生成JSON")))
        (fun _ => none) = .ok (fallbackQuery ("高净值客户")) :=
  (convert_nl_to_es_query_fallback ("高净值客户") (fun _ => none)
    ("对不起，我不能生成JSON")).2.1 rfl

/-- C5 (code bug): for every insights request with non-empty `query_text`,
the handler calls `convert_nl_to_es_query(langchain_client, query.query_text)`
with the arguments swapped against the wrapper signature
`(query_text, client)`, so `client["chat_model"]` subscripts a string, the
resulting `TypeError` escapes to the handler's catch-all, and the endpoint
answers HTTP 500 instead of merging the translated clauses and returning the
four aggregations. -/
theorem get_conversation_insights_swapped_args_500 :
    ∀ (req : InsightsReq) (c : ProviderOutcome) (parse : String → Option Json)
      (aggs : String → Json → List TermCount),
      req.query_text ≠ "" →
      get_conversation_insights req c parse aggs =
        .error ⟨500, "获取会话洞察失败: " ++ typeErrorMsg⟩ := by
  intro req c parse aggs h
  simp only [get_conversation_insights, convert_nl_to_es_query, if_pos h, ne_eq]
  rfl

/-- Witness for C5 at a concrete non-empty query text. -/
theorem get_conversation_insights_swapped_args_500_witness :
    get_conversation_insights ⟨"投资美股的客户", none, none, none⟩ .raised
        (fun _ => none) (fun _ _ => []) =
      .error ⟨500, "获取会话洞察失败: " ++ typeErrorMsg⟩ :=
  get_conversation_insights_swapped_args_500 ⟨"投资美股的客户", none, none, none⟩
    .raised (fun _ => none) (fun _ _ => []) (by decide)

/-- C8: on every successful create in the persisted mock stores (customers
and products), the assigned id is one plus the maximum id currently present,
or 1 when the store is empty — stated without reference to the `max`
implementation: the new id is strictly above every present id and, on a
non-empty store, is the successor of a present id. -/
theorem create_id_assignment :
    ∀ (cdb : List Customer) (c : CustomerCreate) (now : ℕ) (nc : Customer)
      (cdb' : List Customer) (pdb : List Product) (p : ProductCreate),
      (create_customer cdb c now = .ok (nc, cdb') →
        (cdb = [] → nc.id = 1) ∧
        (∀ x ∈ cdb, x.id < nc.id) ∧
        (cdb ≠ [] → ∃ x ∈ cdb, nc.id = x.id + 1)) ∧
      ((pdb = [] → (create_product pdb p now).1.id = 1) ∧
       (∀ y ∈ pdb, y.id < (create_product pdb p now).1.id) ∧
       (pdb ≠ [] → ∃ y ∈ pdb, (create_product pdb p now).1.id = y.id + 1)) := by
  intro cdb c now nc cdb' pdb p
  constructor
  · intro hok
    rw [create_customer] at hok
    split at hok
    · cases hok
    · rw [Except.ok.injEq, Prod.mk.injEq] at hok
      have hid : nc.id = (if cdb = [] then 1 else pyMaxIds (cdb.map (·.id)) + 1) := by
        rw [← hok.1]
      refine ⟨?_, ?_, ?_⟩
      · intro hnil; rw [hid, if_pos hnil]
      · intro x hx
        have hne : cdb ≠ [] := by rintro rfl; cases hx
        rw [hid, if_neg hne]
        exact lt_of_le_of_lt (le_pyMaxIds (List.mem_map_of_mem (·.id) hx)) (lt_add_one _)
      · intro hne
        rw [hid, if_neg hne]
        have hmapne : cdb.map (·.id) ≠ [] := by
          simpa using hne
        obtain ⟨x, hx, hxe⟩ := List.mem_map.mp (pyMaxIds_mem hmapne)
        exact ⟨x, hx, by rw [hxe]⟩
  · have hid : (create_product pdb p now).1.id =
        (if pdb = [] then 1 else pyMaxIds (pdb.map (·.id)) + 1) := rfl
    refine ⟨?_, ?_, ?_⟩
    · intro hnil; rw [hid, if_pos hnil]
    · intro y hy
      have hne : pdb ≠ [] := by rintro rfl; cases hy
      rw [hid, if_neg hne]
      exact lt_of_le_of_lt (le_pyMaxIds (List.mem_map_of_mem (·.id) hy)) (lt_add_one _)
    · intro hne
      rw [hid, if_neg hne]
      have hmapne : pdb.map (·.id) ≠ [] := by
        simpa using hne
      obtain ⟨y, hy, hye⟩ := List.mem_map.mp (pyMaxIds_mem hmapne)
      exact ⟨y, hy, by rw [hye]⟩

/-- The customer row the witness creation produces. -/
def witCustomerRow : Customer :=
  ⟨1, "赵六", "zhaoliu@example.com", "13600136004", none, 1, 7, none, 0, 0⟩

/-- A pre-existing product row for the witness store. -/
def witProductRow : Product :=
  ⟨3, "无线耳机", "高音质无线蓝牙耳机", 999, 300, "配件", 0, none⟩

/-- Witness for C8: creating into an empty customer store assigns id 1, and
creating into a product store holding id 3 assigns a successor of a present
id. -/
theorem create_id_assignment_witness :
    witCustomerRow.id = 1 ∧
    ∃ y ∈ [witProductRow],
      (create_product [witProductRow] ⟨"平板电脑", "轻薄平板", 2999, 50, "电子产品"⟩ 7).1.id =
        y.id + 1 := by
  have h := create_id_assignment [] ⟨"赵六", "zhaoliu@example.com", "13600136004", none, 1⟩ 7
    witCustomerRow [witCustomerRow] [witProductRow] ⟨"平板电脑", "轻薄平板", 2999, 50, "电子产品"⟩
  exact ⟨(h.1 rfl).1 rfl, h.2.2.2 (by simp)⟩

/-- The email-distinctness store invariant: every pair of stored customers
has different emails.  It holds for the seeded store and is preserved by
create/update (both reject duplicates), and it is the context in which the
update conflict rule is meaningful. -/
def distinctEmails (db : List Customer) : Prop :=
  db.Pairwise (fun a b => a.email ≠ b.email)

/-- C7: creating a customer whose email is already present fails with HTTP
400 before any store mutation; on a store with pairwise-distinct emails,
updating a found customer to a (non-empty) email already used by a customer
with a different id fails with HTTP 400, while an update that keeps the
customer's own email succeeds. -/
theorem customer_email_uniqueness :
    ∀ (db : List Customer) (c : CustomerCreate) (cid : ℤ) (u : CustomerUpdate)
      (now : ℕ) (x : Customer) (em : String),
      ((∃ y ∈ db, y.email = c.email) →
        create_customer db c now = .error ⟨400, "该邮箱已被注册"⟩) ∧
      (db.find? (fun y => y.id == cid) = some x → distinctEmails db →
        ((u.email = some em → em ≠ "" → (∃ o ∈ db, o.id ≠ cid ∧ o.email = em) →
          update_customer db cid u now = .error ⟨400, "该邮箱已被其他客户注册"⟩) ∧
         (u.email = some x.email →
          ∃ c' db', update_customer db cid u now = .ok (c', db')))) := by
  intro db c cid u now x em
  constructor
  · rintro ⟨y, hy, hye⟩
    rw [create_customer, if_pos]
    exact List.any_eq_true.mpr ⟨y, hy, by simp [hye]⟩
  · intro hfind hdist
    have hxmem : x ∈ db := List.mem_of_find?_eq_some hfind
    have hxid : x.id = cid := by simpa using List.find?_some hfind
    constructor
    · rintro hue hne ⟨o, ho, hoid, hoe⟩
      have hox : o ≠ x := fun hh => hoid (hh ▸ hxid)
      have hemx : em ≠ x.email := by
        have hsym : Symmetric (fun a b : Customer => a.email ≠ b.email) :=
          fun _ _ hh => hh.symm
        have := hdist.forall hsym ho hxmem hox
        rw [← hoe]; exact this
      rw [update_customer, hfind]
      simp only [hue]
      rw [if_pos ⟨hne, hemx, o, ho, hoid, hoe⟩]
    · intro hue
      rw [update_customer, hfind]
      simp only [hue]
      rw [if_neg]
      · exact ⟨_, _, rfl⟩
      · rintro ⟨-, hself, -⟩
        exact hself rfl

/-- A pre-existing store of two customers with distinct emails, for the C7
witness. -/
def witDb : List Customer :=
  [⟨1, "张三", "zhangsan@example.com", "13800138001", none, 3, 0, none, 5, 25000⟩,
   ⟨2, "李四", "lisi@example.com", "13900139002", none, 1, 0, none, 2, 8000⟩]

/-- Witness for C7: a duplicate-email creation is rejected, updating
customer 1 to customer 2's email is rejected, and updating customer 1 to its
own email succeeds. -/
theorem customer_email_uniqueness_witness :
    create_customer witDb ⟨"王五", "zhangsan@example.com", "1", none, 0⟩ 9 =
      .error ⟨400, "该邮箱已被注册"⟩ ∧
    update_customer witDb 1 ⟨none, some ("lisi@example.com"), none, none, none⟩ 9 =
      .error ⟨400, "该邮箱已被其他客户注册"⟩ ∧
    ∃ c' db', update_customer witDb 1
      ⟨some ("张三丰"), some ("zhangsan@example.com"), none, none, none⟩ 9 = .ok (c', db') := by
  have h₁ := customer_email_uniqueness witDb ⟨"王五", "zhangsan@example.com", "1", none, 0⟩ 1
    ⟨none, some ("lisi@example.com"), none, none, none⟩ 9
    ⟨1, "张三", "zhangsan@example.com", "13800138001", none, 3, 0, none, 5, 25000⟩
    "lisi@example.com"
  have h₂ := customer_email_uniqueness witDb ⟨"王五", "zhangsan@example.com", "1", none, 0⟩ 1
    ⟨some ("张三丰"), some ("zhangsan@example.com"), none, none, none⟩ 9
    ⟨1, "张三", "zhangsan@example.com", "13800138001", none, 3, 0, none, 5, 25000⟩
    "zhangsan@example.com"
  refine ⟨h₁.1 ⟨⟨1, "张三", "zhangsan@example.com", "13800138001", none, 3, 0, none, 5, 25000⟩,
      List.mem_cons_self _ _, rfl⟩, ?_, ?_⟩
  · exact (h₁.2 rfl (by unfold distinctEmails; decide)).1 rfl (by decide)
      ⟨⟨2, "李四", "lisi@example.com", "13900139002", none, 1, 0, none, 2, 8000⟩,
        List.mem_cons_of_mem _ (List.mem_cons_self _ _), by decide, rfl⟩
  · exact (h₂.2 rfl (by unfold distinctEmails; decide)).2 rfl

/-- Total of `buildOrderItems`: the sum of `lookupPrice × quantity` over the
requested items. -/
theorem buildOrderItems_fst (items : List OrderItemCreate) :
    ∀ (oid base : ℤ) (i : ℕ),
      (buildOrderItems oid base i items).1 =
        (items.map (fun it => lookupPrice it * (it.quantity : ℚ))).sum := by
  induction items with
  | nil => intro oid base i; rfl
  | cons it rest ih =>
    intro oid base i
    simp only [buildOrderItems, List.map_cons, List.sum_cons, ih]

/-- Length of the created item rows. -/
theorem buildOrderItems_length (items : List OrderItemCreate) :
    ∀ (oid base : ℤ) (i : ℕ),
      (buildOrderItems oid base i items).2.length = items.length := by
  induction items with
  | nil => intro oid base i; rfl
  | cons it rest ih =>
    intro oid base i
    simp only [buildOrderItems, List.length_cons, ih]

/-- Every created item row comes from a requested item, priced through the
table. -/
theorem buildOrderItems_mem (items : List OrderItemCreate) :
    ∀ (oid base : ℤ) (i : ℕ) (r : OrderItemRec),
      r ∈ (buildOrderItems oid base i items).2 →
      ∃ it ∈ items, r.product_id = it.product_id ∧ r.quantity = it.quantity ∧
        r.unit_price = lookupPrice it ∧ r.subtotal = lookupPrice it * it.quantity := by
  induction items with
  | nil => intro oid base i r hr; cases hr
  | cons it rest ih =>
    intro oid base i r hr
    rcases List.mem_cons.mp hr with rfl | hr
    · exact ⟨it, List.mem_cons_self _ _, rfl, rfl, rfl, rfl⟩
    · obtain ⟨it', hit', hrest⟩ := ih oid base (i + 1) r hr
      exact ⟨it', List.mem_cons_of_mem _ hit', hrest⟩

/-- C6: the stored order's `total_amount` is the sum over the line items of
the table-resolved unit price times quantity (6999.00/4999.00/999.00 for
product ids 1/2/3, the caller's price otherwise), and every created order
item's `subtotal` equals its `unit_price × quantity` with `unit_price`
resolved through the same table. -/
theorem order_total_and_subtotals :
    ∀ (odb : List OrderRec) (idb : List OrderItemRec) (req : OrderCreateReq) (now : ℕ),
      (create_order odb idb req now).1.total_amount =
        (req.items.map (fun it => lookupPrice it * (it.quantity : ℚ))).sum ∧
      (create_order odb idb req now).2.length = req.items.length ∧
      ∀ r ∈ (create_order odb idb req now).2,
        r.subtotal = r.unit_price * r.quantity ∧
        ∃ it ∈ req.items, r.product_id = it.product_id ∧ r.quantity = it.quantity ∧
          r.unit_price = lookupPrice it := by
  intro odb idb req now
  refine ⟨buildOrderItems_fst req.items _ _ 0, buildOrderItems_length req.items _ _ 0, ?_⟩
  intro r hr
  obtain ⟨it, hit, hpid, hq, hup, hsub⟩ := buildOrderItems_mem req.items _ _ 0 r hr
  exact ⟨by rw [hsub, hup, hq], it, hit, hpid, hq, hup⟩

/-- Witness for C6: a three-item order (table-priced ids 1 and 3, plus an
unknown id with a caller price) has the right total, and its second created
row satisfies the subtotal/price conjunct. -/
theorem order_total_and_subtotals_witness :
    (create_order [] [] ⟨1, "pending", "北京", "支付宝",
        [⟨1, 2, 0⟩, ⟨3, 1, 0⟩, ⟨42, 3, 150⟩]⟩ 0).1.total_amount = 15447 ∧
    ∃ r, r ∈ (create_order [] [] ⟨1, "pending", "北京", "支付宝",
        [⟨1, 2, 0⟩, ⟨3, 1, 0⟩, ⟨42, 3, 150⟩]⟩ 0).2 ∧
      r.subtotal = r.unit_price * r.quantity := by
  have h := order_total_and_subtotals [] [] ⟨1, "pending", "北京", "支付宝",
    [⟨1, 2, 0⟩, ⟨3, 1, 0⟩, ⟨42, 3, 150⟩]⟩ 0
  have hlist : (create_order [] [] ⟨1, "pending", "北京", "支付宝",
      [⟨1, 2, 0⟩, ⟨3, 1, 0⟩, ⟨42, 3, 150⟩]⟩ 0).2 =
      [⟨1, 1, 1, 2, 6999, 13998⟩, ⟨2, 1, 3, 1, 999, 999⟩, ⟨3, 1, 42, 3, 150, 450⟩] := by
    norm_num [create_order, buildOrderItems, lookupPrice]
  have hmem : (⟨2, 1, 3, 1, 999, 999⟩ : OrderItemRec) ∈ (create_order [] [] ⟨1, "pending",
      "北京", "支付宝", [⟨1, 2, 0⟩, ⟨3, 1, 0⟩, ⟨42, 3, 150⟩]⟩ 0).2 := by
    rw [hlist]
    exact List.mem_cons_of_mem _ (List.mem_cons_self _ _)
  constructor
  · rw [h.1]; norm_num [lookupPrice]
  · exact ⟨⟨2, 1, 3, 1, 999, 999⟩, hmem, (h.2.2 ⟨2, 1, 3, 1, 999, 999⟩ hmem).1⟩

/-- Every hit kept by the correction/filter loop reaches the dynamic
threshold and is an input hit with its score corrected. -/
theorem mem_correctAndFilter (used : Bool) (t : ℚ) :
    ∀ (l : List Hit) (h : Hit), h ∈ correctAndFilter used t l →
      dynamic_threshold t ≤ h.score ∧
      ∃ h₀ ∈ l, h = { h₀ with score := if used then h₀.score - 1.0 else h₀.score } := by
  intro l
  induction l with
  | nil => intro h hh; cases hh
  | cons h₀ rest ih =>
    intro h hh
    simp only [correctAndFilter] at hh
    by_cases hcond : dynamic_threshold t ≤ (if used then h₀.score - 1.0 else h₀.score)
    · rw [if_pos hcond] at hh
      rcases List.mem_cons.mp hh with rfl | hh'
      · exact ⟨hcond, h₀, List.mem_cons_self _ _, rfl⟩
      · obtain ⟨hb, h₁, hm, he⟩ := ih h hh'
        exact ⟨hb, h₁, List.mem_cons_of_mem _ hm, he⟩
    · rw [if_neg hcond] at hh
      obtain ⟨hb, h₁, hm, he⟩ := ih h hh
      exact ⟨hb, h₁, List.mem_cons_of_mem _ hm, he⟩

/-- The correction/filter loop keeps exactly the hits whose corrected score
reaches the dynamic threshold. -/
theorem length_correctAndFilter (used : Bool) (t : ℚ) :
    ∀ l : List Hit, (correctAndFilter used t l).length =
      (l.filter (fun h =>
        decide (dynamic_threshold t ≤ (if used then h.score - 1.0 else h.score)))).length := by
  intro l
  induction l with
  | nil => rfl
  | cons h rest ih =>
    simp only [correctAndFilter, List.filter_cons]
    by_cases hcond : dynamic_threshold t ≤ (if used then h.score - 1.0 else h.score)
    · simp [hcond, ih]
    · simp [hcond, ih]

/-- Sorting hits preserves membership. -/
theorem mem_sortHitsDesc {a : Hit} {l : List Hit} : a ∈ sortHitsDesc l ↔ a ∈ l :=
  (List.perm_insertionSort hitGE l).mem_iff

/-- Sorting hits preserves length. -/
theorem length_sortHitsDesc (l : List Hit) : (sortHitsDesc l).length = l.length :=
  (List.perm_insertionSort hitGE l).length_eq

/-- The hit sort is descending by score. -/
theorem pairwise_sortHitsDesc (l : List Hit) : List.Pairwise hitGE (sortHitsDesc l) :=
  List.sorted_insertionSort hitGE l

/-- C4: for every vector search with requested threshold `t`, on the
script_score fallback path every returned hit is an input hit with exactly
1.0 subtracted from its score, every returned hit's (corrected) score
reaches `max(t × 0.8, 0.3)`, the returned hits are sorted descending by
corrected score, and the returned total equals the number of input hits that
pass the threshold filter; on the kNN path the same filtering/sorting/total
properties hold with the scores uncorrected. -/
theorem vector_search_threshold_sort_total :
    ∀ (q0 : ℚ) (qv : List ℚ) (resp : SearchResponse) (t : ℚ),
      (∀ h ∈ (vector_search_conversations (some (q0 :: qv)) (.scriptOk resp) t).hits,
        dynamic_threshold t ≤ h.score ∧
        ∃ h₀ ∈ resp.hits, h = { h₀ with score := h₀.score - 1.0 }) ∧
      List.Pairwise hitGE
        (vector_search_conversations (some (q0 :: qv)) (.scriptOk resp) t).hits ∧
      (vector_search_conversations (some (q0 :: qv)) (.scriptOk resp) t).total =
        (resp.hits.filter (fun h => decide (dynamic_threshold t ≤ h.score - 1.0))).length ∧
      (∀ h ∈ (vector_search_conversations (some (q0 :: qv)) (.knnOk resp) t).hits,
        dynamic_threshold t ≤ h.score) ∧
      List.Pairwise hitGE
        (vector_search_conversations (some (q0 :: qv)) (.knnOk resp) t).hits ∧
      (vector_search_conversations (some (q0 :: qv)) (.knnOk resp) t).total =
        (resp.hits.filter (fun h => decide (dynamic_threshold t ≤ h.score))).length := by
  intro q0 qv resp t
  have hs : (vector_search_conversations (some (q0 :: qv)) (.scriptOk resp) t) =
      processResults true t resp := rfl
  have hk : (vector_search_conversations (some (q0 :: qv)) (.knnOk resp) t) =
      processResults false t resp := rfl
  refine ⟨?_, ?_, ?_, ?_, ?_, ?_⟩
  · intro h hh
    rw [hs] at hh
    obtain ⟨hb, h₀, hm, he⟩ := mem_correctAndFilter true t resp.hits h (mem_sortHitsDesc.mp hh)
    rw [if_pos rfl] at he
    exact ⟨hb, h₀, hm, he⟩
  · rw [hs]; exact pairwise_sortHitsDesc _
  · rw [hs]
    show (sortHitsDesc (correctAndFilter true t resp.hits)).length = _
    rw [length_sortHitsDesc, length_correctAndFilter]
    simp only [if_true]
  · intro h hh
    rw [hk] at hh
    obtain ⟨hb, -⟩ := mem_correctAndFilter false t resp.hits h (mem_sortHitsDesc.mp hh)
    exact hb
  · rw [hk]; exact pairwise_sortHitsDesc _
  · rw [hk]
    show (sortHitsDesc (correctAndFilter false t resp.hits)).length = _
    rw [length_sortHitsDesc, length_correctAndFilter]
    rfl

/-- A high-scoring hit for the C4 witness (raw script_score 1.9, i.e.
cosine similarity 0.9). -/
def witHitA : Hit :=
  ⟨1.9, "conv1", "cust1", "客户一", "adv1", "顾问一", 100, some ("摘要一"), [], [], [], []⟩

/-- A low-scoring hit for the C4 witness (raw script_score 1.2, i.e.
cosine similarity 0.2, below the dynamic threshold 0.4). -/
def witHitB : Hit :=
  ⟨1.2, "conv2", "cust1", "客户一", "adv1", "顾问一", 90, none, [], [], [], []⟩

/-- Witness for C4: with threshold 0.5 on the script_score path, the
surviving hit's corrected score 0.9 reaches the dynamic threshold and comes
from an input hit minus 1.0. -/
theorem vector_search_threshold_sort_total_witness :
    dynamic_threshold 0.5 ≤ ({ witHitA with score := 0.9 } : Hit).score ∧
    ∃ h₀ ∈ [witHitA, witHitB],
      ({ witHitA with score := 0.9 } : Hit) = { h₀ with score := h₀.score - 1.0 } := by
  have hlist : (vector_search_conversations (some [1])
      (.scriptOk ⟨[witHitA, witHitB], 2⟩) 0.5).hits = [{ witHitA with score := 0.9 }] := by
    norm_num [vector_search_conversations, processResults, sortHitsDesc, correctAndFilter,
      dynamic_threshold, List.insertionSort, List.orderedInsert, witHitA, witHitB]
  have hmem : ({ witHitA with score := 0.9 } : Hit) ∈ (vector_search_conversations (some [1])
      (.scriptOk ⟨[witHitA, witHitB], 2⟩) 0.5).hits := by
    rw [hlist]; exact List.mem_cons_self _ _
  exact (vector_search_threshold_sort_total 1 [] ⟨[witHitA, witHitB], 2⟩ 0.5).1 _ hmem

/-- Every rank weight is positive. -/
theorem specWeight_pos (i : ℕ) : 0 < specWeight i :=
  lt_of_lt_of_le (by norm_num) (le_max_left 0.2 (1.0 - (i : ℚ) * 0.2))

/-- The enumeration loop of `calculate_weighted_similarity` computes the
indexed sums of `score × weight` and of the weights. -/
theorem loopWeights_eq (l : List ℚ) :
    ∀ i : ℕ, loopWeights i l =
      (∑ j in Finset.range l.length, l.getD j 0 * specWeight (i + j),
       ∑ j in Finset.range l.length, specWeight (i + j)) := by
  induction l with
  | nil => intro i; simp [loopWeights]
  | cons s rest ih =>
    intro i
    have hw : ∀ n : ℕ, max 0.2 (1.0 - (n : ℚ) * 0.2) = specWeight n := fun _ => rfl
    simp only [loopWeights, ih (i + 1), List.length_cons]
    rw [Prod.mk.injEq]
    constructor
    · rw [Finset.sum_range_succ']
      simp only [List.getD_cons_succ, List.getD_cons_zero, Nat.add_zero, hw]
      rw [add_comm]
      congr 1
      apply Finset.sum_congr rfl
      intro j _
      have hj : i + (j + 1) = i + 1 + j := by omega
      rw [hj]
    · rw [Finset.sum_range_succ']
      simp only [Nat.add_zero, hw]
      rw [add_comm]
      congr 1
      apply Finset.sum_congr rfl
      intro j _
      have hj : i + (j + 1) = i + 1 + j := by omega
      rw [hj]

/-- On a non-empty score list the code's weighted similarity equals the
spec's weighted mean (in particular the positive-total-weight guard always
passes). -/
theorem calc_eq_spec (scores : List ℚ) (h : scores ≠ []) :
    calculate_weighted_similarity scores = weightedMeanSpec scores := by
  rw [calculate_weighted_similarity, if_neg h, weightedMeanSpec]
  have hlen : (sortScoresDesc scores).length ≠ 0 := by
    rw [sortScoresDesc, List.length_insertionSort]
    exact fun hh => h (List.length_eq_zero.mp hh)
  have hpos : 0 < ∑ j in Finset.range (sortScoresDesc scores).length, specWeight j := by
    apply Finset.sum_pos
    · intro j _; exact specWeight_pos j
    · rw [Finset.nonempty_range_iff]; exact hlen
  show (if 0 < (loopWeights 0 (sortScoresDesc scores)).2 then
      (loopWeights 0 (sortScoresDesc scores)).1 / (loopWeights 0 (sortScoresDesc scores)).2
    else 0) = _
  rw [loopWeights_eq]
  simp only [Nat.zero_add]
  rw [if_pos hpos]

/-- Projection of an accumulator association list to one customer's
collected scores (first matching key, empty when absent). -/
def accumScores : List (String × CustomerAccum) → String → List ℚ
  | [], _ => []
  | (k, a) :: rest, cid => if k = cid then a.similarity_scores else accumScores rest cid

/-- One grouping step appends the hit's score to exactly its customer's
collected scores. -/
theorem accumScores_updateAccums (h : Hit) (cid : String) :
    ∀ acc, accumScores (updateAccums h acc) cid =
      accumScores acc cid ++ (if h.customer_id = cid then [h.score] else []) := by
  intro acc
  induction acc with
  | nil =>
    by_cases hc : h.customer_id = cid
    · simp [updateAccums, accumScores, appendHit, initAccum, hc]
    · simp [updateAccums, accumScores, hc]
  | cons q rest ih =>
    obtain ⟨k, a⟩ := q
    by_cases hk : k = h.customer_id
    · by_cases hc : k = cid
      · have hhc : h.customer_id = cid := hk.symm.trans hc
        simp only [updateAccums, if_pos hk, accumScores, if_pos hc, if_pos hhc, appendHit]
      · have hhc : ¬h.customer_id = cid := fun hh => hc (hk.trans hh)
        simp only [updateAccums, if_pos hk, accumScores, if_neg hc, if_neg hhc,
          List.append_nil]
    · by_cases hc : k = cid
      · have hhc : ¬h.customer_id = cid := fun hh => hk (hc.trans hh.symm)
        simp only [updateAccums, if_neg hk, accumScores, if_pos hc, if_neg hhc,
          List.append_nil]
      · simp only [updateAccums, if_neg hk, accumScores, if_neg hc, ih]

/-- The grouping fold collects, per customer, exactly that customer's hit
scores in hit order. -/
theorem accumScores_foldl (hits : List Hit) :
    ∀ (acc : List (String × CustomerAccum)) (cid : String),
      accumScores (hits.foldl (fun a h => updateAccums h a) acc) cid =
        accumScores acc cid ++
          (hits.filter (fun h => h.customer_id == cid)).map (·.score) := by
  induction hits with
  | nil => intro acc cid; simp
  | cons h rest ih =>
    intro acc cid
    rw [List.foldl_cons, ih, accumScores_updateAccums]
    by_cases hc : h.customer_id = cid
    · simp [List.filter_cons, hc, List.append_assoc]
    · simp [List.filter_cons, hc]

/-- A non-empty score projection exhibits the accumulator entry it came
from. -/
theorem accumScores_mem :
    ∀ (acc : List (String × CustomerAccum)) (cid : String),
      accumScores acc cid ≠ [] →
      ∃ a, (cid, a) ∈ acc ∧ a.similarity_scores = accumScores acc cid := by
  intro acc
  induction acc with
  | nil => intro cid hne; exact absurd rfl hne
  | cons q rest ih =>
    obtain ⟨k, a⟩ := q
    intro cid hne
    by_cases hc : k = cid
    · subst hc
      rw [accumScores, if_pos rfl] at hne ⊢
      exact ⟨a, List.mem_cons_self _ _, rfl⟩
    · rw [accumScores, if_neg hc] at hne ⊢
      obtain ⟨a', hm, he⟩ := ih cid hne
      exact ⟨a', List.mem_cons_of_mem _ hm, he⟩

/-- Every accumulator entry stores the customer it is keyed by. -/
theorem updateAccums_keys (h : Hit) :
    ∀ acc, (∀ p ∈ acc, (p : String × CustomerAccum).2.customer_id = p.1) →
      ∀ p ∈ updateAccums h acc, p.2.customer_id = p.1 := by
  intro acc
  induction acc with
  | nil =>
    intro _ p hp
    rw [updateAccums] at hp
    rcases List.mem_singleton.mp hp with rfl
    rfl
  | cons q rest ih =>
    obtain ⟨k, a⟩ := q
    intro hinv p hp
    by_cases hk : k = h.customer_id
    · rw [updateAccums, if_pos hk] at hp
      rcases List.mem_cons.mp hp with rfl | hp'
      · exact hinv (k, a) (List.mem_cons_self _ _)
      · exact hinv p (List.mem_cons_of_mem _ hp')
    · rw [updateAccums, if_neg hk] at hp
      rcases List.mem_cons.mp hp with rfl | hp'
      · exact hinv (k, a) (List.mem_cons_self _ _)
      · exact ih (fun q hq => hinv q (List.mem_cons_of_mem _ hq)) p hp'

/-- Key consistency of the whole grouping. -/
theorem groupHits_keys (hits : List Hit) :
    ∀ p ∈ groupHits hits, (p : String × CustomerAccum).2.customer_id = p.1 := by
  rw [groupHits]
  suffices hgen : ∀ acc, (∀ p ∈ acc, (p : String × CustomerAccum).2.customer_id = p.1) →
      ∀ p ∈ hits.foldl (fun a h => updateAccums h a) acc, p.2.customer_id = p.1 by
    exact hgen [] (by intro p hp; cases hp)
  induction hits with
  | nil => intro acc hinv p hp; exact hinv p hp
  | cons h rest ih =>
    intro acc hinv p hp
    rw [List.foldl_cons] at hp
    exact ih (updateAccums h acc) (updateAccums_keys h acc hinv) p hp

/-- Sorting aggregated customers preserves membership. -/
theorem mem_sortAggsDesc {a : CustomerAgg} {l : List CustomerAgg} :
    a ∈ sortAggsDesc l ↔ a ∈ l :=
  (List.perm_insertionSort aggGE l).mem_iff

/-- The aggregated-customer sort is descending by
`(similarity_score, conversation_count)`. -/
theorem pairwise_sortAggsDesc (l : List CustomerAgg) :
    List.Pairwise aggGE (sortAggsDesc l) :=
  List.sorted_insertionSort aggGE l

/-- C2: on every non-empty score list the aggregated similarity is the
rank-weighted mean `Σ(score·wᵢ)/Σ(wᵢ)` over the descending-sorted scores
with `wᵢ = max(0.2, 1.0 − i × 0.2)`; each aggregated customer's
`similarity_score` is that mean of exactly its own hits' scores; the final
customer list is sorted descending by `(weighted similarity, conversation
count)`; and for `[0.9, 0.8, 0.7]` the value is
`(0.9×1.0 + 0.8×0.8 + 0.7×0.6)/(1.0+0.8+0.6)`. -/
theorem weighted_similarity_aggregation :
    ∀ (scores : List ℚ) (resp : SearchResponse) (cid : String),
      (scores ≠ [] → calculate_weighted_similarity scores = weightedMeanSpec scores) ∧
      ((resp.hits.filter (fun h => h.customer_id == cid)).map (·.score) ≠ [] →
        ∃ c ∈ aggregate_customer_data resp, c.customer_id = cid ∧
          c.similarity_score =
            weightedMeanSpec ((resp.hits.filter (fun h => h.customer_id == cid)).map (·.score))) ∧
      List.Pairwise aggGE (aggregate_customer_data resp) ∧
      calculate_weighted_similarity [0.9, 0.8, 0.7] =
        (0.9 * 1.0 + 0.8 * 0.8 + 0.7 * 0.6) / (1.0 + 0.8 + 0.6) := by
  intro scores resp cid
  refine ⟨fun h => calc_eq_spec scores h, ?_, pairwise_sortAggsDesc _, ?_⟩
  · intro hne
    have hacc : accumScores (groupHits resp.hits) cid =
        (resp.hits.filter (fun h => h.customer_id == cid)).map (·.score) := by
      rw [groupHits, accumScores_foldl]
      rfl
    have hne' : accumScores (groupHits resp.hits) cid ≠ [] := by
      rw [hacc]; exact hne
    obtain ⟨a, hmem, hsc⟩ := accumScores_mem _ cid hne'
    have hkey := groupHits_keys resp.hits (cid, a) hmem
    refine ⟨buildAgg a, ?_, hkey, ?_⟩
    · exact mem_sortAggsDesc.mpr (List.mem_map.mpr ⟨(cid, a), hmem, rfl⟩)
    · show calculate_weighted_similarity a.similarity_scores = _
      rw [hsc, hacc]
      exact calc_eq_spec _ hne
  · rw [calc_eq_spec _ (by simp), weightedMeanSpec]
    have hsorted : sortScoresDesc [0.9, 0.8, 0.7] = [0.9, 0.8, 0.7] := by
      norm_num [sortScoresDesc, List.insertionSort, List.orderedInsert, qGE]
    rw [hsorted]
    norm_num [Finset.sum_range_succ, specWeight, max_def, List.getD_cons_zero,
      List.getD_cons_succ]

/-- Witness for C2: the formula equality at the concrete list
`[0.9, 0.8, 0.7]`, and the aggregation of a concrete two-hit response for
customer `cust1`. -/
theorem weighted_similarity_aggregation_witness :
    calculate_weighted_similarity [0.9, 0.8, 0.7] = weightedMeanSpec [0.9, 0.8, 0.7] ∧
    ∃ c ∈ aggregate_customer_data ⟨[witHitA, witHitB], 2⟩, c.customer_id = "cust1" ∧
      c.similarity_score = weightedMeanSpec
        (([witHitA, witHitB].filter (fun h => h.customer_id == "cust1")).map (·.score)) := by
  have h := weighted_similarity_aggregation [0.9, 0.8, 0.7] ⟨[witHitA, witHitB], 2⟩ "cust1"
  exact ⟨h.1 (by simp), h.2.1 (by simp [witHitA, witHitB])⟩

/-- Unfolding of the evaluator on a binary operation. -/
theorem evalNode_binop (op : BinOpKind) (l r : Expr) :
    evalNode (.binop op l r) =
      (evalNode l).bind (fun lv => (evalNode r).bind (fun rv =>
        match binOpFn op with
        | none => .error ("不支持的操作符")
        | some f => f lv rv)) := rfl

/-- Unfolding of the evaluator on a unary operation. -/
theorem evalNode_unaryop (op : UnaryOpKind) (e : Expr) :
    evalNode (.unaryop op e) =
      (evalNode e).bind (fun v =>
        match unaryOpFn op with
        | none => .error ("不支持的一元操作符")
        | some f => f v) := rfl

/-- Unfolding of the evaluator on a call to a whitelisted function. -/
theorem evalNode_call_fn (id : String) (args : List Expr)
    (kws : List (String × Expr)) (f : List PyNum → Except String PyNum)
    (hf : pyFunction id = some f) :
    evalNode (.call (.byName id) args kws) = (evalArgs args).bind f := by
  simp only [evalNode, hf]
  rfl

/-- Unfolding of the argument-list evaluation. -/
theorem evalArgs_cons (a : Expr) (rest : List Expr) :
    evalArgs (a :: rest) =
      (evalNode a).bind (fun v => (evalArgs rest).bind (fun vs => .ok (v :: vs))) := rfl

mutual

/-- Whenever the tree walk reaches a non-whitelisted construct, evaluation
raises. -/
theorem reachesBad_evalNode : ∀ e : Expr, reachesBad e = true → ∃ m, evalNode e = .error m
  | .constant (.num v), h => by simp [reachesBad] at h
  | .constant (.otherConst d), _ => ⟨_, rfl⟩
  | .name id, h => by
    simp only [reachesBad, Bool.not_eq_true', Bool.or_eq_false_iff,
      beq_eq_false_iff_ne, ne_eq] at h
    refine ⟨"不支持的变量: " ++ id, ?_⟩
    simp only [evalNode, if_neg h.1, if_neg h.2]
  | .binop op l r, h => by
    simp only [reachesBad, Bool.or_eq_true] at h
    cases hEl : evalNode l with
    | error m => exact ⟨m, by rw [evalNode_binop, hEl]; rfl⟩
    | ok lv =>
      cases hEr : evalNode r with
      | error m => exact ⟨m, by rw [evalNode_binop, hEl, hEr]; rfl⟩
      | ok rv =>
        have hop : binOpFn op = none := by
          rcases h with (h | h) | h
          · exact Option.isNone_iff_eq_none.mp h
          · obtain ⟨m, hm⟩ := reachesBad_evalNode l h
            rw [hm] at hEl; cases hEl
          · obtain ⟨m, hm⟩ := reachesBad_evalNode r h
            rw [hm] at hEr; cases hEr
        refine ⟨"不支持的操作符", ?_⟩
        rw [evalNode_binop, hEl, hEr]
        show (match binOpFn op with
          | none => Except.error ("不支持的操作符")
          | some f => f lv rv) = _
        rw [hop]
  | .unaryop op e, h => by
    simp only [reachesBad, Bool.or_eq_true] at h
    cases hEv : evalNode e with
    | error m => exact ⟨m, by rw [evalNode_unaryop, hEv]; rfl⟩
    | ok v =>
      have hop : unaryOpFn op = none := by
        rcases h with h | h
        · exact Option.isNone_iff_eq_none.mp h
        · obtain ⟨m, hm⟩ := reachesBad_evalNode e h
          rw [hm] at hEv; cases hEv
      refine ⟨"不支持的一元操作符", ?_⟩
      rw [evalNode_unaryop, hEv]
      show (match unaryOpFn op with
        | none => Except.error ("不支持的一元操作符")
        | some f => f v) = _
      rw [hop]
  | .call fn args kws, h => by
    simp only [reachesBad, Bool.or_eq_true] at h
    cases fn with
    | notAName d => exact ⟨_, rfl⟩
    | byName id =>
      cases hf : pyFunction id with
      | none =>
        refine ⟨"不支持的函数: " ++ id, ?_⟩
        simp only [evalNode, hf]
      | some f =>
        have hargs : reachesBadList args = true := by
          rcases h with h | h
          · simp [hf] at h
          · exact h
        obtain ⟨m, hm⟩ := reachesBadList_evalArgs args hargs
        exact ⟨m, by rw [evalNode_call_fn id args kws f hf, hm]; rfl⟩
  | .other d, _ => ⟨_, rfl⟩

/-- List version of `reachesBad_evalNode`. -/
theorem reachesBadList_evalArgs :
    ∀ l : List Expr, reachesBadList l = true → ∃ m, evalArgs l = .error m
  | [], h => by cases h
  | a :: rest, h => by
    simp only [reachesBadList, Bool.or_eq_true] at h
    cases hEa : evalNode a with
    | error m => exact ⟨m, by rw [evalArgs_cons, hEa]; rfl⟩
    | ok v =>
      have hrest : reachesBadList rest = true := by
        rcases h with h | h
        · obtain ⟨m, hm⟩ := reachesBad_evalNode a h
          rw [hm] at hEa; cases hEa
        · exact h
      obtain ⟨m, hm⟩ := reachesBadList_evalArgs rest hrest
      exact ⟨m, by rw [evalArgs_cons, hEa, hm]; rfl⟩

end

/-- The AST of `2+3*4`. -/
def exprAdd234 : Expr :=
  .binop .add (.constant (.num (.int 2)))
    (.binop .mult (.constant (.num (.int 3))) (.constant (.num (.int 4))))

/-- The AST of `2**10`. -/
def exprPow210 : Expr :=
  .binop .pow (.constant (.num (.int 2))) (.constant (.num (.int 10)))

/-- The AST of `os.system('x')`: a call whose function is an attribute
access, with a string-literal argument. -/
def osSystemCallExpr : Expr :=
  .call (.notAName ("Attribute: os.system")) [.constant (.otherConst ("str"))] []

/-- The AST of `abs(1, x=os.system('x'))`: a whitelisted call carrying the
forbidden construct inside a keyword argument, which `_eval_node` never
visits. -/
def keywordBypassExpr : Expr :=
  .call (.byName ("abs")) [.constant (.num (.int 1))] [(("x"), osSystemCallExpr)]

/-- C1 counterexample: `abs(1, x=os.system('x'))` contains non-whitelisted
constructs (attribute access, a call to a non-whitelisted function, a string
constant), yet `safe_calculator` returns `"1"`, which does not begin with
`计算错误` — keyword arguments are silently dropped, not rejected. -/
theorem safe_calculator_keyword_bypass :
    containsBad keywordBypassExpr = true ∧
    safe_calculator keywordBypassExpr = "1" ∧
    (("1" : String).startsWith ("计算错误")) = false := by
  refine ⟨by decide, by decide, by decide⟩

/-- C1 (amended): `safe_calculator` is total (every input yields a string);
`safe_calculator("2+3*4") = "14"` and `safe_calculator("2**10") = "1024"`;
and for any expression containing a non-whitelisted construct in an
evaluated position (keyword arguments of calls are never visited), the
result begins with `计算错误` and the construct is not evaluated (the walk
raises instead of producing a value). -/
theorem safe_calculator_amended :
    safe_calculator exprAdd234 = "14" ∧
    safe_calculator exprPow210 = "1024" ∧
    ∀ e : Expr, reachesBad e = true →
      ∃ rest, safe_calculator e = "计算错误" ++ rest := by
  refine ⟨by decide, by decide, ?_⟩
  intro e h
  obtain ⟨m, hm⟩ := reachesBad_evalNode e h
  refine ⟨": 表达式解析错误: " ++ m, ?_⟩
  simp only [safe_calculator, hm]
  rw [← String.append_assoc, ← String.append_assoc]
  congr 1

/-- Witness for C1 (amended): the bad name `os` is rejected with a string
beginning with `计算错误`. -/
theorem safe_calculator_amended_witness :
    reachesBad (Expr.name ("os")) = true ∧
    ∃ rest, safe_calculator (Expr.name ("os")) = "计算错误" ++ rest := by
  exact ⟨by decide, safe_calculator_amended.2.2 (Expr.name ("os")) (by decide)⟩
